import Mathlib

/-!
Shallow embedding of `starport/services/chain/build.go` (package `chain`):
the build-and-release pipeline (`Build`, `build`, `BuildRelease`, `preBuild`,
`discoverMain`) together with the contracts of its collaborators
(`gocmd`, `goanalysis`, `checksum`, `archive`, `os`, `io`), and proofs of the
spec's claims about error classification, target parsing, archive naming,
defaulting, flag assembly, release-directory handling, temporary-directory
cleanup and checksum finalization.

External collaborator calls (setup, code generation, config loading,
chain-id resolution, `go mod tidy`/`verify`, entry-point scanning, the
compiler subprocess, tar/gzip archiving, file creation/copy, checksumming)
are modelled by an environment record `Collab` supplying each call's
outcome; the control flow of `build.go` over those outcomes is translated
literally.  Filesystem effects of `BuildRelease` are recorded as an event
trace, with Go's `defer` modelled by a list of deferred events appended in
LIFO order when the function returns.
-/

namespace Chain

/-! ## Data model (`Chain`, `App`, config) -/

/-- The application identity fields of `Chain.app` used by `build.go`:
`Name`, `ImportPath` and `Path` (the project source root). -/
structure App where
  name : String
  importPath : String
  path : String
deriving DecidableEq, Repr

/-- Modelled from the spec: the program binary identifier is `{name}d`
(`App.D()` lives outside `src/`; the spec calls it the
"program binary identifier (`{name}d`)"). -/
def App.D (a : App) : String := a.name ++ "d"

/-- `c.sourceVersion`: the resolved source version `(tag, hash)`. -/
structure SourceVersion where
  tag : String
  hash : String
deriving DecidableEq, Repr

/-- The `build` section of project configuration consumed by `build.go`:
`Build.LDFlags` (extra linker flags) and `Build.Main` (optional explicit
entry-point path, empty when unset). -/
structure BuildConf where
  ldflags : List String
  main : String
deriving DecidableEq, Repr

/-- Project configuration (only the `Build` section is consumed here). -/
structure Config where
  build : BuildConf
deriving DecidableEq, Repr

/-- The fields of `Chain` read by `build.go`: the application identity and
the resolved source version. -/
structure Chain where
  app : App
  sourceVersion : SourceVersion
deriving DecidableEq, Repr

/-! ## Errors

Go error values as a tree: `exitError` models `exec.ExitError` (subprocess
exit failure), `errMultipleMainPackagesFound` the sentinel
`goanalysis.ErrMultipleMainPackagesFound`, `targetParse` the error of
`gocmd.ParseTarget`, `wrap` is `errors.Wrap` (pkg/errors: message plus
cause), `cannotBuildApp` is `CannotBuildAppError{err}`, and `other` stands
for any further error value a collaborator may return. -/

inductive GoError where
  | exitError (msg : String)
  | errMultipleMainPackagesFound
  | targetParse (token : String)
  | other (kind msg : String)
  | wrap (cause : GoError) (msg : String)
  | cannotBuildApp (cause : GoError)
deriving DecidableEq, Repr

/-- `errors.Is(e, t)`: `e` equals `t` or some error in `e`'s unwrap chain
does.  `wrap` and `CannotBuildAppError` both expose their cause. -/
def errorsIs : GoError → GoError → Bool
  | e@(.wrap cause _), t => e == t || errorsIs cause t
  | e@(.cannotBuildApp cause), t => e == t || errorsIs cause t
  | e, t => e == t

/-- `errors.As(e, &exitErr)` for `*exec.ExitError`: some error in `e`'s
unwrap chain is an `exec.ExitError`. -/
def isExitErrorChain : GoError → Bool
  | .exitError _ => true
  | .wrap cause _ => isExitErrorChain cause
  | .cannotBuildApp cause => isExitErrorChain cause
  | _ => false

/-- Whether an error value is (at top level) a `CannotBuildAppError`. -/
def isCannotBuildTop : GoError → Bool
  | .cannotBuildApp _ => true
  | _ => false

/-! ## Collaborator contracts outside `src/`

`gocmd` helpers, modelled from the spec (§4.1, §4.2, §6): target tokens are
`"<os>:<arch>"`, the flag set is a dependency-mode-readonly flag followed by
a single aggregated linker-flags token. -/

/-- Modelled from the spec: `gocmd.FlagMod`, the dependency-mode flag. -/
def FlagMod : String := "-mod"

/-- Modelled from the spec: `gocmd.FlagModValueReadOnly`. -/
def FlagModValueReadOnly : String := "readonly"

/-- Modelled from the spec: `gocmd.FlagLdflags`, the linker-flags flag. -/
def FlagLdflags : String := "-ldflags"

/-- Modelled from the spec: `gocmd.Ldflags` aggregates linker flags into a
single space-separated token. -/
def Ldflags (flags : List String) : String := String.intercalate " " flags

/-- Modelled from the spec: `gocmd.BuildTarget` renders a `"<os>:<arch>"`
target token. -/
def BuildTarget (goos goarch : String) : String := goos ++ ":" ++ goarch

/-- `strings.Split` on `:` over a character list (Go semantics:
`Split("", ":") = [""]`, `Split("a:b", ":") = ["a", "b"]`). -/
def splitColonAux : List Char → List Char → List (List Char)
  | [], acc => [acc.reverse]
  | c :: cs, acc =>
    if c = ':' then acc.reverse :: splitColonAux cs []
    else splitColonAux cs (c :: acc)

/-- `strings.Split t ":"`. -/
def splitColon (cs : List Char) : List (List Char) := splitColonAux cs []

/-- Modelled from the spec (§4.1): `gocmd.ParseTarget` splits the token on
the separator and fails with a `TargetParseError` unless there are exactly
two parts. -/
def ParseTarget (t : String) : Except GoError (String × String) :=
  match splitColon t.data with
  | [goos, goarch] => .ok (String.mk goos, String.mk goarch)
  | _ => .error (.targetParse t)

/-- Go `strings.Title` (ASCII): upper-case every letter that follows a
non-letter. -/
def titleMap : Bool → List Char → List Char
  | _, [] => []
  | prevLetter, c :: cs =>
    (if c.isAlpha && !prevLetter then c.toUpper else c) :: titleMap c.isAlpha cs

/-- `strings.Title`. -/
def stringsTitle (s : String) : String := String.mk (titleMap false s.data)

/-- Go `filepath.Join` for the two-argument calls in `build.go`
(path cleaning omitted; no claim depends on it). -/
def pathJoin (a b : String) : String :=
  if a = "" then b else if b = "" then a else a ++ "/" ++ b

/-- `releaseDir` constant of `build.go`. -/
def releaseDir : String := "release"

/-- `checksumTxt` constant of `build.go`. -/
def checksumTxt : String := "checksum.txt"

/-! ## Collaborator environment

One invocation's outcomes of every external call `build.go` makes.  Calls
repeated once per target (`os.MkdirTemp`, `gocmd.BuildPath`, `archive.Tar`,
`os.Create`, `io.Copy`) are indexed by the target's position. `none` / `.ok`
means the call succeeds. -/

structure Collab where
  /-- `c.setup()`. -/
  setupErr : Option GoError
  /-- `c.generateAll(ctx)`. -/
  generateAllErr : Option GoError
  /-- `c.Config()`. -/
  configRes : Except GoError Config
  /-- `c.ID()` (chain identifier). -/
  idRes : Except GoError String
  /-- `c.Binary()` (binary name). -/
  binaryRes : Except GoError String
  /-- `gocmd.ModTidy(ctx, c.app.Path)`. -/
  modTidyErr : Option GoError
  /-- `gocmd.ModVerify(ctx, c.app.Path)`. -/
  modVerifyErr : Option GoError
  /-- `goanalysis.DiscoverOneMain(path)`: one entry point found gives its
  path; multiple found gives `errMultipleMainPackagesFound`. -/
  discoverRes : Except GoError String
  /-- `gocmd.BuildPath` (the compiler subprocess) for target index `i`. -/
  compileErr : Nat → Option GoError
  /-- `os.MkdirTemp("", "")` for target index `i`: fresh directory name. -/
  mkdirTempRes : Nat → Except GoError String
  /-- `archive.Tar(out, archive.Gzip)` for target index `i`. -/
  tarErr : Nat → Option GoError
  /-- `os.Create(tarPath)` for target index `i`. -/
  createErr : Nat → Option GoError
  /-- `io.Copy(tarf, tarr)` for target index `i`. -/
  copyErr : Nat → Option GoError
  /-- `os.RemoveAll(releasePath)` (default-path reset). -/
  removeAllErr : Option GoError
  /-- `os.MkdirAll(releasePath, 0755)`. -/
  mkdirAllErr : Option GoError
  /-- `checksum.Sum(releasePath, checksumPath)`. -/
  checksumErr : Option GoError

/-! ## `preBuild` and `discoverMain` -/

/-- `(c *Chain) preBuild(ctx)`: loads config and chain id, assembles the
flag set (config LDFlags first, then the five injected `-X` pairs in the
order of `build.go` lines 177-183), then runs `go mod tidy` and
`go mod verify`. -/
def preBuild (c : Chain) (cl : Collab) : Except GoError (List String) :=
  match cl.configRes with
  | .error e => .error e
  | .ok config =>
  match cl.idRes with
  | .error e => .error e
  | .ok chainID =>
  let ldFlags := config.build.ldflags ++
    ["-X github.com/cosmos/cosmos-sdk/version.Name=" ++ stringsTitle c.app.name,
     "-X github.com/cosmos/cosmos-sdk/version.AppName=" ++ c.app.name ++ "d",
     "-X github.com/cosmos/cosmos-sdk/version.Version=" ++ c.sourceVersion.tag,
     "-X github.com/cosmos/cosmos-sdk/version.Commit=" ++ c.sourceVersion.hash,
     "-X " ++ c.app.importPath ++ "/cmd/" ++ c.app.D ++ "/cmd.ChainID=" ++ chainID]
  let buildFlags := [FlagMod, FlagModValueReadOnly, FlagLdflags, Ldflags ldFlags]
  match cl.modTidyErr with
  | some e => .error e
  | none =>
  match cl.modVerifyErr with
  | some e => .error e
  | none => .ok buildFlags

/-- `(c *Chain) discoverMain(path)`: an explicit `build.main` config entry
short-circuits to `filepath.Join(c.app.Path, conf.Build.Main)`; otherwise
the result of `goanalysis.DiscoverOneMain` is returned, with the
multiple-main sentinel wrapped with a config-override suggestion. -/
def discoverMain (c : Chain) (cl : Collab) : Except GoError String :=
  match cl.configRes with
  | .error e => .error e
  | .ok conf =>
  if conf.build.main ≠ "" then
    .ok (pathJoin c.app.path conf.build.main)
  else
    match cl.discoverRes with
    | .error e =>
      if e = .errMultipleMainPackagesFound then
        .error (.wrap e "specify the path to your chain's main package in your config.yml>build.main")
      else .error e
    | .ok p => .ok p

/-! ## `build` and `Build` -/

/-- The deferred reclassification in `(c *Chain) build`: an error whose
chain holds an `exec.ExitError`, or that `errors.Is`
`ErrMultipleMainPackagesFound`, becomes `CannotBuildAppError{err}`. -/
def reclassify (e : GoError) : GoError :=
  if isExitErrorChain e || errorsIs e .errMultipleMainPackagesFound then
    .cannotBuildApp e
  else e

/-- The body of `(c *Chain) build` before the deferred reclassification:
`generateAll`; `preBuild`; `Binary`; `discoverMain`; `gocmd.BuildPath`. -/
def buildInner (c : Chain) (cl : Collab) : Option GoError :=
  match cl.generateAllErr with
  | some e => some e
  | none =>
  match preBuild c cl with
  | .error e => some e
  | .ok _ =>
  match cl.binaryRes with
  | .error e => some e
  | .ok _ =>
  match discoverMain c cl with
  | .error e => some e
  | .ok _ => cl.compileErr 0

/-- `(c *Chain) build(ctx, output)`, with its deferred reclassification. -/
def build (c : Chain) (cl : Collab) : Option GoError :=
  (buildInner c cl).map reclassify

/-- `(c *Chain) Build(ctx, output)`: `setup`; `build`; `Binary`. -/
def Build (c : Chain) (cl : Collab) : Except GoError String :=
  match cl.setupErr with
  | some e => .error e
  | none =>
  match build c cl with
  | some e => .error e
  | none => cl.binaryRes

/-! ## `BuildRelease`: filesystem event trace -/

/-- One filesystem/subprocess effect of `BuildRelease`, in the order it
happens. -/
inductive FsEvent where
  | removeAll (path : String)
  | mkdirAll (path : String)
  | mkdirTemp (name : String)
  | compile (goos goarch outDir : String)
  | createFile (path : String)
  | writeFile (path : String)
  | closeFile (path : String)
  | checksumWrite (dir manifest : String)
deriving DecidableEq, Repr

/-- The archive file name `fmt.Sprintf("%s_%s_%s.tar.gz", prefix, goos, goarch)`. -/
def archiveName (pre goos goarch : String) : String :=
  pre ++ "_" ++ goos ++ "_" ++ goarch ++ ".tar.gz"

/-- One iteration of the per-target loop of `BuildRelease` (lines 116-156)
for target token `t` at index `i`: parse the token; create the temp dir
(deferring its removal); run the compiler into it; open the tar stream;
create the archive file (deferring its close); copy the stream; close.
Returns the iteration's events, its deferred events (in registration
order; they run LIFO at function exit), and its error if any step
failed. -/
def buildTargetIter (cl : Collab) (pre releasePath : String) (i : Nat) (t : String) :
    List FsEvent × List FsEvent × Option GoError :=
  match ParseTarget t with
  | .error e => ([], [], some e)
  | .ok (goos, goarch) =>
  match cl.mkdirTempRes i with
  | .error e => ([], [], some e)
  | .ok out =>
  match cl.compileErr i with
  | some e => ([.mkdirTemp out, .compile goos goarch out], [.removeAll out], some e)
  | none =>
  match cl.tarErr i with
  | some e => ([.mkdirTemp out, .compile goos goarch out], [.removeAll out], some e)
  | none =>
  let tarPath := pathJoin releasePath (archiveName pre goos goarch)
  match cl.createErr i with
  | some e => ([.mkdirTemp out, .compile goos goarch out], [.removeAll out], some e)
  | none =>
  match cl.copyErr i with
  | some e =>
    ([.mkdirTemp out, .compile goos goarch out, .createFile tarPath],
     [.removeAll out, .closeFile tarPath], some e)
  | none =>
    ([.mkdirTemp out, .compile goos goarch out, .createFile tarPath,
      .writeFile tarPath, .closeFile tarPath],
     [.removeAll out, .closeFile tarPath], none)

/-- The per-target loop of `BuildRelease` (lines 115-157), from target index
`i` on: run each iteration in order, stopping at the first failure.
Returns the loop's events, its accumulated deferred events, and its
error. -/
def releaseLoop (cl : Collab) (pre releasePath : String) :
    List String → Nat → List FsEvent × List FsEvent × Option GoError
  | [], _ => ([], [], none)
  | t :: ts, i =>
    let s := buildTargetIter cl pre releasePath i t
    match s.2.2 with
    | some _ => s
    | none =>
      let rest := releaseLoop cl pre releasePath ts (i + 1)
      (s.1 ++ rest.1, s.2.1 ++ rest.2.1, rest.2.2)

/-- Result of a `BuildRelease` invocation: the full event trace (deferred
events included, in execution order), the returned `releasePath` string, and
the returned error. -/
structure BRResult where
  trace : List FsEvent
  releasePath : String
  err : Option GoError
deriving DecidableEq, Repr

/-- `(c *Chain) BuildRelease(ctx, output, prefix, targets...)`.
`hostOS`/`hostArch` stand for `runtime.GOOS`/`runtime.GOARCH`.  Mirrors
lines 74-163: defaulting of `prefix` and `targets`; `setup`; `preBuild`;
`Binary`; `discoverMain`; release-dir resolution (reset only in the
default-path case); `MkdirAll`; the per-target loop; `checksum.Sum` run in
the `return` statement, so the release path is returned alongside its
error.  Deferred events run (LIFO) on every return path after the loop has
registered them. -/
def BuildRelease (c : Chain) (cl : Collab) (hostOS hostArch output prefix0 : String)
    (targets0 : List String) : BRResult :=
  let pre := if prefix0 = "" then c.app.name else prefix0
  let targets := if targets0.isEmpty then [BuildTarget hostOS hostArch] else targets0
  match cl.setupErr with
  | some e => ⟨[], "", some e⟩
  | none =>
  match preBuild c cl with
  | .error e => ⟨[], "", some e⟩
  | .ok _buildFlags =>
  match cl.binaryRes with
  | .error e => ⟨[], "", some e⟩
  | .ok _binary =>
  match discoverMain c cl with
  | .error e => ⟨[], "", some e⟩
  | .ok _mainPath =>
  if output = "" then
    let rp := pathJoin c.app.path releaseDir
    match cl.removeAllErr with
    | some e => ⟨[.removeAll rp], "", some e⟩
    | none =>
    match cl.mkdirAllErr with
    | some e => ⟨[.removeAll rp, .mkdirAll rp], "", some e⟩
    | none =>
    let lp := releaseLoop cl pre rp targets 0
    match lp.2.2 with
    | some e => ⟨[.removeAll rp, .mkdirAll rp] ++ lp.1 ++ lp.2.1.reverse, "", some e⟩
    | none =>
      ⟨[.removeAll rp, .mkdirAll rp] ++ lp.1 ++
        [.checksumWrite rp (pathJoin rp checksumTxt)] ++ lp.2.1.reverse,
       rp, cl.checksumErr⟩
  else
    match cl.mkdirAllErr with
    | some e => ⟨[.mkdirAll output], "", some e⟩
    | none =>
    let lp := releaseLoop cl pre output targets 0
    match lp.2.2 with
    | some e => ⟨[.mkdirAll output] ++ lp.1 ++ lp.2.1.reverse, "", some e⟩
    | none =>
      ⟨[.mkdirAll output] ++ lp.1 ++
        [.checksumWrite output (pathJoin output checksumTxt)] ++ lp.2.1.reverse,
       output, cl.checksumErr⟩

/-! ## Trace observations -/

/-- Paths of archives written (successful `io.Copy` into the tar file). -/
def writePaths (evs : List FsEvent) : List String :=
  evs.filterMap fun e => match e with | .writeFile p => some p | _ => none

/-- The `(goos, goarch)` pairs of compiler subprocess invocations. -/
def compileTargets (evs : List FsEvent) : List (String × String) :=
  evs.filterMap fun e => match e with | .compile goos goarch _ => some (goos, goarch) | _ => none

/-- Paths passed to `os.RemoveAll`. -/
def removedPaths (evs : List FsEvent) : List String :=
  evs.filterMap fun e => match e with | .removeAll p => some p | _ => none

/-- Whether `d` is `p` or an ancestor directory of `p`. -/
def isPathPrefix (d p : String) : Bool :=
  d == p || List.isPrefixOf (d.data ++ ['/']) p.data

/-- The set of files present after replaying a trace over an initial file
list: `writeFile` adds the file, `removeAll d` deletes every file at or
under `d`. -/
def diskAfter (files : List String) : List FsEvent → List String
  | [] => files
  | .writeFile p :: rest => diskAfter (files ++ [p]) rest
  | .removeAll d :: rest => diskAfter (files.filter fun p => !isPathPrefix d p) rest
  | _ :: rest => diskAfter files rest

/-! ## Derived observations and success predicates -/

/-- The operating system of a parsed target token (unused default on
malformed tokens). -/
def parsedOS (t : String) : String :=
  match ParseTarget t with | .ok (o, _) => o | .error _ => ""

/-- The architecture of a parsed target token. -/
def parsedArch (t : String) : String :=
  match ParseTarget t with | .ok (_, a) => a | .error _ => ""

/-- The archive path `BuildRelease` writes for target token `t` under
release dir `rp` with prefix `pre`. -/
def expectedArchivePath (pre rp t : String) : String :=
  pathJoin rp (archiveName pre (parsedOS t) (parsedArch t))

/-- All external calls of one loop iteration (index `i`, token `t`)
succeed. -/
def iterOK (cl : Collab) (i : Nat) (t : String) : Prop :=
  (∃ p, ParseTarget t = .ok p) ∧ (∃ d, cl.mkdirTempRes i = .ok d) ∧
  cl.compileErr i = none ∧ cl.tarErr i = none ∧
  cl.createErr i = none ∧ cl.copyErr i = none

/-- The steps of `BuildRelease` before the per-target loop all succeed. -/
structure PreOK (c : Chain) (cl : Collab) : Prop where
  setup : cl.setupErr = none
  flags : ∃ fl, preBuild c cl = .ok fl
  binary : ∃ b, cl.binaryRes = .ok b
  main : ∃ mp, discoverMain c cl = .ok mp
  rmAll : cl.removeAllErr = none
  mkAll : cl.mkdirAllErr = none

/-- The effective archive prefix (defaults to the project name). -/
def effPre (c : Chain) (prefix0 : String) : String :=
  if prefix0 = "" then c.app.name else prefix0

/-- The effective target list (defaults to the host pair). -/
def effTargets (hostOS hostArch : String) (targets0 : List String) : List String :=
  if targets0.isEmpty then [BuildTarget hostOS hostArch] else targets0

/-- The effective release directory (defaults to `{sourceRoot}/release`). -/
def effReleasePath (c : Chain) (output : String) : String :=
  if output = "" then pathJoin c.app.path releaseDir else output

/-! ## Sample inputs (used by witnesses and counterexamples) -/

/-- A sample project. -/
def sampleChain : Chain :=
  { app := { name := "mars", importPath := "github.com/tester/mars", path := "/home/u/mars" },
    sourceVersion := { tag := "v0.1.0", hash := "abc123" } }

/-- A collaborator environment in which every external call succeeds. -/
def okCollab : Collab :=
  { setupErr := none
    generateAllErr := none
    configRes := .ok { build := { ldflags := ["-w"], main := "" } }
    idRes := .ok "mars-1"
    binaryRes := .ok "marsd"
    modTidyErr := none
    modVerifyErr := none
    discoverRes := .ok "/home/u/mars/cmd/marsd"
    compileErr := fun _ => none
    mkdirTempRes := fun i => .ok ("/tmp/build" ++ toString i)
    tarErr := fun _ => none
    createErr := fun _ => none
    copyErr := fun _ => none
    removeAllErr := none
    mkdirAllErr := none
    checksumErr := none }

/-- Like `okCollab`, but every compiler invocation exits non-zero. -/
def exitCollab : Collab :=
  { okCollab with compileErr := fun _ => some (.exitError "exit status 1") }

/-- Like `okCollab`, but the compiler invocation for the second target
(index 1) exits non-zero. -/
def exit1Collab : Collab :=
  { okCollab with
    compileErr := fun i => if i = 1 then some (.exitError "exit status 1") else none }

/-- Like `okCollab`, but configuration loading fails. -/
def cfgErrCollab : Collab :=
  { okCollab with configRes := .error (.other "ConfigError" "bad config") }

/-- Like `okCollab`, but the entry-point scan finds several main
packages. -/
def multiMainCollab : Collab :=
  { okCollab with discoverRes := .error .errMultipleMainPackagesFound }

/-- Like `okCollab`, but the checksum write fails. -/
def checksumErrCollab : Collab :=
  { okCollab with checksumErr := some (.other "ChecksumError" "cannot write checksum.txt") }

/-- Like `okCollab`, but configuration sets an explicit entry-point path. -/
def mainCfgCollab : Collab :=
  { okCollab with configRes := .ok { build := { ldflags := ["-w"], main := "cmd/marsd" } } }

/-! ## Helper lemmas -/

theorem ParseTarget_error {t : String} {e : GoError} (h : ParseTarget t = .error e) :
    e = .targetParse t := by
  unfold ParseTarget at h
  split at h
  · exact absurd h (by simp)
  · simpa [Except.error.injEq] using h.symm

theorem parsedOS_eq {t o a : String} (h : ParseTarget t = .ok (o, a)) : parsedOS t = o := by
  simp [parsedOS, h]

theorem parsedArch_eq {t o a : String} (h : ParseTarget t = .ok (o, a)) : parsedArch t = a := by
  simp [parsedArch, h]

theorem mem_writePaths {p : String} {evs : List FsEvent} :
    p ∈ writePaths evs ↔ FsEvent.writeFile p ∈ evs := by
  simp only [writePaths, List.mem_filterMap]
  constructor
  · rintro ⟨e, he, hf⟩
    cases e <;> simp_all
  · intro h
    exact ⟨_, h, rfl⟩

theorem writePaths_append (a b : List FsEvent) :
    writePaths (a ++ b) = writePaths a ++ writePaths b := by
  simp [writePaths, List.filterMap_append]

theorem compileTargets_append (a b : List FsEvent) :
    compileTargets (a ++ b) = compileTargets a ++ compileTargets b := by
  simp [compileTargets, List.filterMap_append]

/-- Every event one iteration emits is a temp-dir creation, a compiler
invocation, or a tar-file creation/write/close: never a `removeAll`, a
`mkdirAll` or a `checksumWrite`. -/
theorem iter_events_shape (cl : Collab) (pre rp : String) (i : Nat) (t : String) :
    ∀ ev ∈ (buildTargetIter cl pre rp i t).1,
      (∃ d, ev = .mkdirTemp d) ∨ (∃ o a out, ev = .compile o a out) ∨
      (∃ p, ev = .createFile p) ∨ (∃ p, ev = .writeFile p) ∨ (∃ p, ev = .closeFile p) := by
  intro ev hev
  unfold buildTargetIter at hev
  repeat' split at hev
  all_goals simp only [List.mem_cons, List.not_mem_nil, or_false] at hev
  all_goals try casesm* _ ∨ _
  all_goals subst_vars
  all_goals simp

/-- Every deferred event of one iteration is either the removal of the temp
dir `os.MkdirTemp` handed out at this index, or a tar-file close. -/
theorem iter_defers_shape (cl : Collab) (pre rp : String) (i : Nat) (t : String) :
    ∀ ev ∈ (buildTargetIter cl pre rp i t).2.1,
      (∃ d, ev = .removeAll d ∧ cl.mkdirTempRes i = .ok d) ∨ (∃ p, ev = .closeFile p) := by
  intro ev hev
  unfold buildTargetIter at hev
  repeat' split at hev
  all_goals simp only [List.mem_cons, List.not_mem_nil, or_false] at hev
  all_goals try casesm* _ ∨ _
  all_goals subst_vars
  all_goals first
    | exact Or.inl ⟨_, rfl, by assumption⟩
    | exact Or.inr ⟨_, rfl⟩

/-- The removal of every temp dir one iteration creates is among its
deferred events. -/
theorem iter_cleanup (cl : Collab) (pre rp : String) (i : Nat) (t : String) (d : String)
    (hd : FsEvent.mkdirTemp d ∈ (buildTargetIter cl pre rp i t).1) :
    FsEvent.removeAll d ∈ (buildTargetIter cl pre rp i t).2.1 := by
  unfold buildTargetIter at hd ⊢
  repeat' split at hd
  all_goals simp_all

/-- A failed parse makes the whole iteration fail with that error, emitting
no event and deferring nothing. -/
theorem iter_parse_fail (cl : Collab) (pre rp : String) (i : Nat) {t : String} {e : GoError}
    (h : ParseTarget t = .error e) :
    buildTargetIter cl pre rp i t = ([], [], some e) := by
  simp [buildTargetIter, h]

/-- A compiler failure makes the iteration fail with that error. -/
theorem iter_compile_fail (cl : Collab) (pre rp : String) (i : Nat) {t o a d : String}
    {ex : GoError} (hpt : ParseTarget t = .ok (o, a)) (hmt : cl.mkdirTempRes i = .ok d)
    (hc : cl.compileErr i = some ex) :
    (buildTargetIter cl pre rp i t).2.2 = some ex := by
  simp [buildTargetIter, hpt, hmt, hc]

/-- A fully successful iteration: no error, exactly one archive written, at
the expected path, and exactly one compiler invocation, for the parsed
pair. -/
theorem iter_ok (cl : Collab) (pre rp : String) {i : Nat} {t : String}
    (h : iterOK cl i t) :
    (buildTargetIter cl pre rp i t).2.2 = none ∧
    writePaths (buildTargetIter cl pre rp i t).1 = [expectedArchivePath pre rp t] ∧
    compileTargets (buildTargetIter cl pre rp i t).1 = [(parsedOS t, parsedArch t)] := by
  obtain ⟨⟨⟨o, a⟩, hpt⟩, ⟨d, hmt⟩, hc, htar, hcr, hcp⟩ := h
  simp [buildTargetIter, hpt, hmt, hc, htar, hcr, hcp, writePaths, compileTargets,
    expectedArchivePath, parsedOS_eq hpt, parsedArch_eq hpt]

/-- Loop events satisfy the per-iteration event shapes. -/
theorem releaseLoop_events_shape (cl : Collab) (pre rp : String) :
    ∀ (ts : List String) (i : Nat), ∀ ev ∈ (releaseLoop cl pre rp ts i).1,
      (∃ d, ev = .mkdirTemp d) ∨ (∃ o a out, ev = .compile o a out) ∨
      (∃ p, ev = .createFile p) ∨ (∃ p, ev = .writeFile p) ∨ (∃ p, ev = .closeFile p) := by
  intro ts
  induction ts with
  | nil => intro i ev hev; simp [releaseLoop] at hev
  | cons t ts ih =>
    intro i ev hev
    simp only [releaseLoop] at hev
    split at hev
    · exact iter_events_shape cl pre rp i t ev hev
    · simp only [List.mem_append] at hev
      rcases hev with h | h
      · exact iter_events_shape cl pre rp i t ev h
      · exact ih (i + 1) ev h

/-- Every deferred event of the loop is either the removal of a temp dir
handed out by `os.MkdirTemp` at one of this loop's indices, or a tar-file
close. -/
theorem releaseLoop_defers_shape (cl : Collab) (pre rp : String) :
    ∀ (ts : List String) (i : Nat), ∀ ev ∈ (releaseLoop cl pre rp ts i).2.1,
      (∃ d, ev = .removeAll d ∧ ∃ k, i ≤ k ∧ k < i + ts.length ∧ cl.mkdirTempRes k = .ok d) ∨
      (∃ p, ev = .closeFile p) := by
  intro ts
  induction ts with
  | nil => intro i ev hev; simp [releaseLoop] at hev
  | cons t ts ih =>
    intro i ev hev
    simp only [releaseLoop] at hev
    split at hev
    · rcases iter_defers_shape cl pre rp i t ev hev with ⟨d, hd, hok⟩ | h
      · exact Or.inl ⟨d, hd, i, le_refl i, by simp, hok⟩
      · exact Or.inr h
    · simp only [List.mem_append] at hev
      rcases hev with h | h
      · rcases iter_defers_shape cl pre rp i t ev h with ⟨d, hd, hok⟩ | h'
        · exact Or.inl ⟨d, hd, i, le_refl i, by simp, hok⟩
        · exact Or.inr h'
      · rcases ih (i + 1) ev h with ⟨d, hd, k, hk1, hk2, hk3⟩ | h'
        · exact Or.inl ⟨d, hd, k, by omega, by simp only [List.length_cons]; omega, hk3⟩
        · exact Or.inr h'

/-- The removal of every temp dir the loop creates is among the loop's
deferred events. -/
theorem releaseLoop_cleanup (cl : Collab) (pre rp : String) :
    ∀ (ts : List String) (i : Nat) (d : String),
      FsEvent.mkdirTemp d ∈ (releaseLoop cl pre rp ts i).1 →
      FsEvent.removeAll d ∈ (releaseLoop cl pre rp ts i).2.1 := by
  intro ts
  induction ts with
  | nil => intro i d hd; simp [releaseLoop] at hd
  | cons t ts ih =>
    intro i d hd
    simp only [releaseLoop] at hd ⊢
    split at hd
    · exact iter_cleanup cl pre rp i t d hd
    · dsimp only at hd ⊢
      simp only [List.mem_append] at hd ⊢
      rcases hd with h | h
      · exact Or.inl (iter_cleanup cl pre rp i t d h)
      · exact Or.inr (ih (i + 1) d h)

/-- A loop over targets whose iterations all succeed: no error, one archive
per target at the expected path, one compiler invocation per target. -/
theorem releaseLoop_ok (cl : Collab) (pre rp : String) :
    ∀ (ts : List String) (i : Nat),
      (∀ k, (hk : k < ts.length) → iterOK cl (i + k) (ts.get ⟨k, hk⟩)) →
      (releaseLoop cl pre rp ts i).2.2 = none ∧
      writePaths (releaseLoop cl pre rp ts i).1 = ts.map (expectedArchivePath pre rp) ∧
      compileTargets (releaseLoop cl pre rp ts i).1 =
        ts.map (fun t => (parsedOS t, parsedArch t)) := by
  intro ts
  induction ts with
  | nil => intro i h; simp [releaseLoop, writePaths, compileTargets]
  | cons t ts ih =>
    intro i h
    have h0 : iterOK cl i t := h 0 (Nat.succ_pos _)
    obtain ⟨hs0, hsw, hsc⟩ := iter_ok cl pre rp h0
    obtain ⟨ih0, ihw, ihc⟩ := ih (i + 1) (fun k hk => by
      have h' := h (k + 1) (Nat.succ_lt_succ hk)
      have harith : i + (k + 1) = i + 1 + k := by omega
      rw [harith] at h'
      exact h')
    simp only [releaseLoop, hs0]
    refine ⟨ih0, ?_, ?_⟩
    · rw [writePaths_append, hsw, ihw]; simp
    · rw [compileTargets_append, hsc, ihc]; simp

/-- A loop whose first `j` iterations succeed and whose iteration `j`
fails: the loop fails with iteration `j`'s error, having written exactly
the first `j` archives and having invoked the compiler for the first `j`
targets plus whatever iteration `j` emitted. -/
theorem releaseLoop_fail_spec (cl : Collab) (pre rp : String) :
    ∀ (ts : List String) (i j : Nat) (hj : j < ts.length),
      (∀ k, (hk : k < j) → iterOK cl (i + k) (ts.get ⟨k, hk.trans hj⟩)) →
      ∀ ex, (buildTargetIter cl pre rp (i + j) (ts.get ⟨j, hj⟩)).2.2 = some ex →
      (releaseLoop cl pre rp ts i).2.2 = some ex ∧
      writePaths (releaseLoop cl pre rp ts i).1 =
        (ts.take j).map (expectedArchivePath pre rp) ++
          writePaths (buildTargetIter cl pre rp (i + j) (ts.get ⟨j, hj⟩)).1 ∧
      compileTargets (releaseLoop cl pre rp ts i).1 =
        (ts.take j).map (fun t => (parsedOS t, parsedArch t)) ++
          compileTargets (buildTargetIter cl pre rp (i + j) (ts.get ⟨j, hj⟩)).1 := by
  intro ts
  induction ts with
  | nil => intro i j hj; exact absurd hj (by simp)
  | cons t ts ih =>
    intro i j hj hpre ex hfail
    match j with
    | 0 =>
      have hfail' : (buildTargetIter cl pre rp i t).2.2 = some ex := hfail
      simp only [releaseLoop, hfail']
      exact ⟨trivial, by simp, by simp⟩
    | j' + 1 =>
      have h0 : iterOK cl i t := hpre 0 (Nat.succ_pos _)
      obtain ⟨hs0, hsw, hsc⟩ := iter_ok cl pre rp h0
      have hj' : j' < ts.length := Nat.lt_of_succ_lt_succ hj
      have harith : i + (j' + 1) = i + 1 + j' := by omega
      have hfail' : (buildTargetIter cl pre rp (i + 1 + j') (ts.get ⟨j', hj'⟩)).2.2
          = some ex := by
        rw [harith] at hfail
        exact hfail
      obtain ⟨ihe, ihw, ihc⟩ := ih (i + 1) j' hj'
        (fun k hk => by
          have h' := hpre (k + 1) (Nat.succ_lt_succ hk)
          have harith2 : i + (k + 1) = i + 1 + k := by omega
          rw [harith2] at h'
          exact h')
        ex hfail'
      simp only [releaseLoop, hs0]
      rw [harith]
      refine ⟨ihe, ?_, ?_⟩
      · rw [writePaths_append, hsw, ihw]
        simp
      · rw [compileTargets_append, hsc, ihc]
        simp


theorem diskAfter_append (a b : List FsEvent) :
    ∀ files, diskAfter files (a ++ b) = diskAfter (diskAfter files a) b := by
  induction a with
  | nil => intro files; rfl
  | cons e rest ih => intro files; cases e <;> simp [diskAfter, ih]

/-- A file already on disk stays on disk across events that never remove a
path at or above it. -/
theorem mem_diskAfter_persist :
    ∀ (evs : List FsEvent) (files : List String) (p : String), p ∈ files →
      (∀ d, FsEvent.removeAll d ∈ evs → isPathPrefix d p = false) →
      p ∈ diskAfter files evs := by
  intro evs
  induction evs with
  | nil => intro files p hp _; simpa [diskAfter] using hp
  | cons e rest ih =>
    intro files p hp hrm
    have hrm' : ∀ d, FsEvent.removeAll d ∈ rest → isPathPrefix d p = false :=
      fun d hd => hrm d (List.mem_cons_of_mem _ hd)
    cases e with
    | removeAll d =>
      simp only [diskAfter]
      refine ih _ p ?_ hrm'
      refine List.mem_filter.mpr ⟨hp, ?_⟩
      have hd := hrm d (List.mem_cons_self _ _)
      simp [hd]
    | writeFile q =>
      simp only [diskAfter]
      exact ih _ p (by simp [hp]) hrm'
    | mkdirAll q => exact ih _ p hp hrm'
    | mkdirTemp q => exact ih _ p hp hrm'
    | compile o a out => exact ih _ p hp hrm'
    | createFile q => exact ih _ p hp hrm'
    | closeFile q => exact ih _ p hp hrm'
    | checksumWrite d m => exact ih _ p hp hrm'

/-- A file written during a trace is on disk afterwards, provided no event
of the trace removes a path at or above it. -/
theorem mem_diskAfter_of_write :
    ∀ (evs : List FsEvent) (files : List String) (p : String),
      FsEvent.writeFile p ∈ evs →
      (∀ d, FsEvent.removeAll d ∈ evs → isPathPrefix d p = false) →
      p ∈ diskAfter files evs := by
  intro evs
  induction evs with
  | nil => intro files p hp _; simp at hp
  | cons e rest ih =>
    intro files p hp hrm
    have hrm' : ∀ d, FsEvent.removeAll d ∈ rest → isPathPrefix d p = false :=
      fun d hd => hrm d (List.mem_cons_of_mem _ hd)
    rcases List.mem_cons.mp hp with heq | hmem
    · rw [← heq]
      simp only [diskAfter]
      exact mem_diskAfter_persist rest (files ++ [p]) p (by simp) hrm'
    · cases e with
      | removeAll d => simp only [diskAfter]; exact ih _ p hmem hrm'
      | writeFile q => simp only [diskAfter]; exact ih _ p hmem hrm'
      | mkdirAll q => exact ih _ p hmem hrm'
      | mkdirTemp q => exact ih _ p hmem hrm'
      | compile o a out => exact ih _ p hmem hrm'
      | createFile q => exact ih _ p hmem hrm'
      | closeFile q => exact ih _ p hmem hrm'
      | checksumWrite d m => exact ih _ p hmem hrm'

theorem pathJoin_ne_empty (a b : String) (hb : b ≠ "") : pathJoin a b ≠ "" := by
  by_cases ha : a = ""
  · simpa [pathJoin, ha] using hb
  · simp only [pathJoin, ha, hb, if_neg, if_false]
    intro h
    have hlen := congrArg String.length h
    simp only [String.length_append] at hlen
    have h1 : ("" : String).length = 0 := rfl
    have h2 : ("/" : String).length = 1 := rfl
    omega

/-- The loop's deferred events, replayed in LIFO order, write no file. -/
theorem releaseLoop_defers_no_write (cl : Collab) (pre rp : String) (ts : List String)
    (i : Nat) : writePaths (releaseLoop cl pre rp ts i).2.1.reverse = [] := by
  unfold writePaths
  rw [List.filterMap_eq_nil]
  intro ev hev
  rw [List.mem_reverse] at hev
  rcases releaseLoop_defers_shape cl pre rp ts i ev hev with ⟨d, hd, _⟩ | ⟨p, hp⟩ <;>
    subst_vars <;> rfl

/-- The loop's deferred events contain no compiler invocation. -/
theorem releaseLoop_defers_no_compile (cl : Collab) (pre rp : String) (ts : List String)
    (i : Nat) : compileTargets (releaseLoop cl pre rp ts i).2.1.reverse = [] := by
  unfold compileTargets
  rw [List.filterMap_eq_nil]
  intro ev hev
  rw [List.mem_reverse] at hev
  rcases releaseLoop_defers_shape cl pre rp ts i ev hev with ⟨d, hd, _⟩ | ⟨p, hp⟩ <;>
    subst_vars <;> rfl

/-- The loop's deferred events contain no checksum write. -/
theorem releaseLoop_defers_no_checksum (cl : Collab) (pre rp : String) (ts : List String)
    (i : Nat) (dir m : String) :
    FsEvent.checksumWrite dir m ∉ (releaseLoop cl pre rp ts i).2.1.reverse := by
  intro hmem
  rw [List.mem_reverse] at hmem
  rcases releaseLoop_defers_shape cl pre rp ts i _ hmem with ⟨d, hd, _⟩ | ⟨p, hp⟩ <;>
    simp_all

/-- The loop's body events contain no checksum write. -/
theorem releaseLoop_events_no_checksum (cl : Collab) (pre rp : String) (ts : List String)
    (i : Nat) (dir m : String) :
    FsEvent.checksumWrite dir m ∉ (releaseLoop cl pre rp ts i).1 := by
  intro hmem
  rcases releaseLoop_events_shape cl pre rp ts i _ hmem with
    ⟨d, hd⟩ | ⟨o, a, out, hc⟩ | ⟨p, hp⟩ | ⟨p, hp⟩ | ⟨p, hp⟩ <;> simp_all

/-- The loop's deferred events contain no temp-dir creation. -/
theorem releaseLoop_defers_no_mkdirTemp (cl : Collab) (pre rp : String) (ts : List String)
    (i : Nat) (d : String) :
    FsEvent.mkdirTemp d ∉ (releaseLoop cl pre rp ts i).2.1.reverse := by
  intro hmem
  rw [List.mem_reverse] at hmem
  rcases releaseLoop_defers_shape cl pre rp ts i _ hmem with ⟨q, hq, _⟩ | ⟨p, hp⟩ <;>
    simp_all

/-- The loop's body events contain no `removeAll`. -/
theorem releaseLoop_events_no_remove (cl : Collab) (pre rp : String) (ts : List String)
    (i : Nat) (d : String) :
    FsEvent.removeAll d ∉ (releaseLoop cl pre rp ts i).1 := by
  intro hmem
  rcases releaseLoop_events_shape cl pre rp ts i _ hmem with
    ⟨q, hq⟩ | ⟨o, a, out, hc⟩ | ⟨p, hp⟩ | ⟨p, hp⟩ | ⟨p, hp⟩ <;> simp_all

/-- Under successful pre-loop steps, `BuildRelease` is: release-dir events
(with the reset only in the default-path case), the loop's events, the
checksum write when the loop succeeds, then the deferred events in LIFO
order; the returned path and error follow the loop's outcome. -/
theorem BuildRelease_normal (c : Chain) (cl : Collab)
    (hostOS hostArch output prefix0 : String) (targets0 : List String) (h : PreOK c cl) :
    BuildRelease c cl hostOS hostArch output prefix0 targets0 =
      (let pre := effPre c prefix0
       let targets := effTargets hostOS hostArch targets0
       let rp := effReleasePath c output
       let preEvs : List FsEvent :=
         if output = "" then [.removeAll rp, .mkdirAll rp] else [.mkdirAll rp]
       let lp := releaseLoop cl pre rp targets 0
       match lp.2.2 with
       | some e => ⟨preEvs ++ lp.1 ++ lp.2.1.reverse, "", some e⟩
       | none => ⟨preEvs ++ lp.1 ++ [.checksumWrite rp (pathJoin rp checksumTxt)]
           ++ lp.2.1.reverse, rp, cl.checksumErr⟩) := by
  obtain ⟨hsetup, ⟨fl, hfl⟩, ⟨b, hb⟩, ⟨mp, hmp⟩, hrm, hmk⟩ := h
  by_cases ho : output = ""
  · simp only [BuildRelease, effPre, effTargets, effReleasePath, hsetup, hfl, hb, hmp,
      hrm, hmk, ho, if_true]
  · simp only [BuildRelease, effPre, effTargets, effReleasePath, hsetup, hfl, hb, hmp,
      hrm, hmk, ho, if_false]

theorem writePaths_nil : writePaths [] = [] := rfl

theorem writePaths_cons_removeAll (p : String) (evs : List FsEvent) :
    writePaths (FsEvent.removeAll p :: evs) = writePaths evs := rfl

theorem writePaths_cons_mkdirAll (p : String) (evs : List FsEvent) :
    writePaths (FsEvent.mkdirAll p :: evs) = writePaths evs := rfl

theorem writePaths_cons_checksum (d m : String) (evs : List FsEvent) :
    writePaths (FsEvent.checksumWrite d m :: evs) = writePaths evs := rfl

theorem compileTargets_nil : compileTargets [] = [] := rfl

theorem compileTargets_cons_removeAll (p : String) (evs : List FsEvent) :
    compileTargets (FsEvent.removeAll p :: evs) = compileTargets evs := rfl

theorem compileTargets_cons_mkdirAll (p : String) (evs : List FsEvent) :
    compileTargets (FsEvent.mkdirAll p :: evs) = compileTargets evs := rfl

theorem writePaths_preEvs (P : Prop) [Decidable P] (rp : String) :
    writePaths (if P then [FsEvent.removeAll rp, FsEvent.mkdirAll rp]
      else [FsEvent.mkdirAll rp]) = [] := by
  split <;> rfl

theorem compileTargets_preEvs (P : Prop) [Decidable P] (rp : String) :
    compileTargets (if P then [FsEvent.removeAll rp, FsEvent.mkdirAll rp]
      else [FsEvent.mkdirAll rp]) = [] := by
  split <;> rfl

theorem compileTargets_cons_checksum (d m : String) (evs : List FsEvent) :
    compileTargets (FsEvent.checksumWrite d m :: evs) = compileTargets evs := rfl

theorem checksum_not_mem_preEvs (P : Prop) [Decidable P] (rp dir m : String) :
    FsEvent.checksumWrite dir m ∉
      (if P then [FsEvent.removeAll rp, FsEvent.mkdirAll rp]
       else [FsEvent.mkdirAll rp]) := by
  split <;> simp

theorem diskAfter_preEvs (P : Prop) [Decidable P] (rp : String) :
    diskAfter [] (if P then [FsEvent.removeAll rp, FsEvent.mkdirAll rp]
      else [FsEvent.mkdirAll rp]) = [] := by
  split <;> rfl

/-! ## Claims -/

/-- C5: for every project whose configuration sets a non-empty explicit
entry-point path, entry-point resolution returns the join of the project
source root with the configured path, and performs no filesystem scan: the
result does not depend on anything but the configuration, in particular not
on the entry-point scanner's outcome or on how many real entry points the
source tree contains. -/
theorem claim_C5_explicit_entrypoint (c : Chain) (cl : Collab) (conf : Config)
    (hc : cl.configRes = .ok conf) (hm : conf.build.main ≠ "") :
    discoverMain c cl = .ok (pathJoin c.app.path conf.build.main) ∧
    (∀ cl' : Collab, cl'.configRes = cl.configRes →
      discoverMain c cl' = discoverMain c cl) := by
  constructor
  · simp [discoverMain, hc, hm]
  · intro cl' hcc
    simp [discoverMain, hcc, hc, hm]

/-- Witness for C5 at a concrete project and configuration. -/
theorem claim_C5_witness :
    discoverMain sampleChain mainCfgCollab = .ok (pathJoin "/home/u/mars" "cmd/marsd") :=
  (claim_C5_explicit_entrypoint sampleChain mainCfgCollab _ rfl (by decide)).1

/-- C6: with no explicit entry point configured and the scanner reporting
several main packages, `Build` fails with a `CannotBuildAppError` whose
cause is the multiple-entry-points sentinel wrapped with the
config-override suggestion. -/
theorem claim_C6_multiple_mains (c : Chain) (cl : Collab) (conf : Config) (b chainID : String)
    (hsetup : cl.setupErr = none) (hgen : cl.generateAllErr = none)
    (hc : cl.configRes = .ok conf) (hm : conf.build.main = "")
    (hid : cl.idRes = .ok chainID) (ht : cl.modTidyErr = none) (hv : cl.modVerifyErr = none)
    (hb : cl.binaryRes = .ok b)
    (hd : cl.discoverRes = .error .errMultipleMainPackagesFound) :
    Build c cl = .error (.cannotBuildApp (.wrap .errMultipleMainPackagesFound
      "specify the path to your chain's main package in your config.yml>build.main")) ∧
    errorsIs (.cannotBuildApp (.wrap .errMultipleMainPackagesFound
      "specify the path to your chain's main package in your config.yml>build.main"))
      .errMultipleMainPackagesFound = true := by
  refine ⟨?_, by decide⟩
  simp only [Build, build, buildInner, preBuild, discoverMain, hsetup, hgen, hc, hm, hid,
    ht, hv, hb, hd]
  rfl

/-- Witness for C6 at a concrete project whose source tree scan reports
multiple main packages. -/
theorem claim_C6_witness :
    Build sampleChain multiMainCollab = .error (.cannotBuildApp
      (.wrap .errMultipleMainPackagesFound
        "specify the path to your chain's main package in your config.yml>build.main")) :=
  (claim_C6_multiple_mains sampleChain multiMainCollab _ "marsd" "mars-1"
    rfl rfl rfl rfl rfl rfl rfl rfl rfl).1

/-- C7: a successful flag assembly is the dependency-mode-readonly flag
followed by a single aggregated linker-flags token in which the
config-supplied flags come first and exactly the five injected name/value
pairs follow, in fixed order: program display name (title-cased application
name), program binary identifier (`{name}d`), version tag, commit hash,
chain identifier; and identical inputs give the identical flag set. -/
theorem claim_C7_flag_assembly (c : Chain) (cl : Collab) (conf : Config) (chainID : String)
    (hc : cl.configRes = .ok conf) (hid : cl.idRes = .ok chainID)
    (ht : cl.modTidyErr = none) (hv : cl.modVerifyErr = none) :
    preBuild c cl = .ok [FlagMod, FlagModValueReadOnly, FlagLdflags,
      Ldflags (conf.build.ldflags ++
        ["-X github.com/cosmos/cosmos-sdk/version.Name=" ++ stringsTitle c.app.name,
         "-X github.com/cosmos/cosmos-sdk/version.AppName=" ++ c.app.name ++ "d",
         "-X github.com/cosmos/cosmos-sdk/version.Version=" ++ c.sourceVersion.tag,
         "-X github.com/cosmos/cosmos-sdk/version.Commit=" ++ c.sourceVersion.hash,
         "-X " ++ c.app.importPath ++ "/cmd/" ++ c.app.D ++ "/cmd.ChainID=" ++ chainID])] ∧
    (∀ cl' : Collab, cl'.configRes = cl.configRes → cl'.idRes = cl.idRes →
      cl'.modTidyErr = none → cl'.modVerifyErr = none →
      preBuild c cl' = preBuild c cl) := by
  constructor
  · simp [preBuild, hc, hid, ht, hv]
  · intro cl' h1 h2 h3 h4
    simp [preBuild, hc, hid, ht, hv, h1, h2, h3, h4]

/-- Witness for C7 at a concrete project. -/
theorem claim_C7_witness :
    preBuild sampleChain okCollab = .ok [FlagMod, FlagModValueReadOnly, FlagLdflags,
      Ldflags (["-w"] ++
        ["-X github.com/cosmos/cosmos-sdk/version.Name=" ++ stringsTitle "mars",
         "-X github.com/cosmos/cosmos-sdk/version.AppName=" ++ "mars" ++ "d",
         "-X github.com/cosmos/cosmos-sdk/version.Version=" ++ "v0.1.0",
         "-X github.com/cosmos/cosmos-sdk/version.Commit=" ++ "abc123",
         "-X " ++ "github.com/tester/mars" ++ "/cmd/" ++ "marsd" ++
           "/cmd.ChainID=" ++ "mars-1"])] :=
  (claim_C7_flag_assembly sampleChain okCollab _ "mars-1" rfl rfl rfl rfl).1

/-- C3: when every requested target builds successfully, the archives
written are exactly one per target, at
`{releaseDir}/{prefix}_{os}_{arch}.tar.gz`; and for target `"linux:amd64"`
with prefix `"foo"` the archive file name is `foo_linux_amd64.tar.gz`. -/
theorem claim_C3_archive_naming (c : Chain) (cl : Collab)
    (hostOS hostArch output prefix0 : String) (targets0 : List String) (h : PreOK c cl)
    (hiter : ∀ k, (hk : k < (effTargets hostOS hostArch targets0).length) →
      iterOK cl k ((effTargets hostOS hostArch targets0).get ⟨k, hk⟩)) :
    writePaths (BuildRelease c cl hostOS hostArch output prefix0 targets0).trace =
      (effTargets hostOS hostArch targets0).map
        (expectedArchivePath (effPre c prefix0) (effReleasePath c output)) ∧
    archiveName "foo" "linux" "amd64" = "foo_linux_amd64.tar.gz" := by
  obtain ⟨hle, hlw, _⟩ := releaseLoop_ok cl (effPre c prefix0) (effReleasePath c output)
    (effTargets hostOS hostArch targets0) 0
    (fun k hk => by rw [Nat.zero_add]; exact hiter k hk)
  refine ⟨?_, rfl⟩
  rw [BuildRelease_normal c cl hostOS hostArch output prefix0 targets0 h]
  simp only [hle]
  simp only [writePaths_append, writePaths_preEvs, writePaths_cons_checksum,
    writePaths_nil, releaseLoop_defers_no_write, hlw, List.append_nil, List.nil_append]

/-- Witness for C3: two targets, prefix `"foo"`, default release dir. -/
theorem claim_C3_witness :
    writePaths (BuildRelease sampleChain okCollab "linux" "amd64" "" "foo"
      ["linux:amd64", "darwin:arm64"]).trace
      = ["/home/u/mars/release/foo_linux_amd64.tar.gz",
         "/home/u/mars/release/foo_darwin_arm64.tar.gz"] := by
  have happ := claim_C3_archive_naming sampleChain okCollab "linux" "amd64" "" "foo"
    ["linux:amd64", "darwin:arm64"]
    ⟨rfl, ⟨_, rfl⟩, ⟨_, rfl⟩, ⟨_, rfl⟩, rfl, rfl⟩
    (by intro k hk
        have hk2 : k < 2 := by simpa [effTargets] using hk
        match k, hk2 with
        | 0, _ => exact ⟨⟨_, rfl⟩, ⟨_, rfl⟩, rfl, rfl, rfl, rfl⟩
        | 1, _ => exact ⟨⟨_, rfl⟩, ⟨_, rfl⟩, rfl, rfl, rfl, rfl⟩)
  exact happ.1.trans (by rfl)

/-- C4: an empty `prefix` defaults to the project name and an empty target
list defaults to exactly one target, the host operating-system/architecture
pair: exactly one compiler invocation happens, for the host pair, and
exactly one archive is written, named with the project name and the host
pair. -/
theorem claim_C4_defaults (c : Chain) (cl : Collab) (hostOS hostArch output : String)
    (h : PreOK c cl)
    (hparse : ParseTarget (BuildTarget hostOS hostArch) = .ok (hostOS, hostArch))
    (hiter : iterOK cl 0 (BuildTarget hostOS hostArch)) :
    compileTargets (BuildRelease c cl hostOS hostArch output "" []).trace
      = [(hostOS, hostArch)] ∧
    writePaths (BuildRelease c cl hostOS hostArch output "" []).trace
      = [pathJoin (effReleasePath c output) (archiveName c.app.name hostOS hostArch)] := by
  have htgts : effTargets hostOS hostArch [] = [BuildTarget hostOS hostArch] := rfl
  obtain ⟨hle, hlw, hlc⟩ := releaseLoop_ok cl (effPre c "") (effReleasePath c output)
    (effTargets hostOS hostArch []) 0
    (by rw [htgts]
        intro k hk
        have hk0 : k = 0 := by simpa using hk
        subst hk0
        exact hiter)
  constructor
  · rw [BuildRelease_normal c cl hostOS hostArch output "" [] h]
    simp only [hle]
    simp only [compileTargets_append, compileTargets_preEvs, compileTargets_cons_checksum,
      compileTargets_nil, releaseLoop_defers_no_compile, hlc, List.append_nil,
      List.nil_append]
    simp [htgts, parsedOS_eq hparse, parsedArch_eq hparse]
  · rw [BuildRelease_normal c cl hostOS hostArch output "" [] h]
    simp only [hle]
    simp only [writePaths_append, writePaths_preEvs, writePaths_cons_checksum,
      writePaths_nil, releaseLoop_defers_no_write, hlw, List.append_nil, List.nil_append]
    simp [htgts, expectedArchivePath, parsedOS_eq hparse, parsedArch_eq hparse, effPre]

/-- Witness for C4: empty prefix and empty target list on the host pair. -/
theorem claim_C4_witness :
    compileTargets (BuildRelease sampleChain okCollab "linux" "amd64" "/out" "" []).trace
      = [("linux", "amd64")] :=
  (claim_C4_defaults sampleChain okCollab "linux" "amd64" "/out"
    ⟨rfl, ⟨_, rfl⟩, ⟨_, rfl⟩, ⟨_, rfl⟩, rfl, rfl⟩ rfl
    ⟨⟨_, rfl⟩, ⟨_, rfl⟩, rfl, rfl, rfl, rfl⟩).1

/-- C8: the release directory is reset (removed, then recreated) exactly
when the caller supplies an empty output directory, in which case it is
`{sourceRoot}/release` and the reset happens before anything else; with an
explicit output directory, every `removeAll` in the whole invocation hits
only temp dirs handed out by `os.MkdirTemp`, never the output directory's
contents. -/
theorem claim_C8_release_dir (c : Chain) (cl : Collab)
    (hostOS hostArch output prefix0 : String) (targets0 : List String) (h : PreOK c cl) :
    (output ≠ "" → ∀ p, FsEvent.removeAll p ∈
        (BuildRelease c cl hostOS hostArch output prefix0 targets0).trace →
      ∃ k, cl.mkdirTempRes k = .ok p) ∧
    (output = "" → ∃ rest,
      (BuildRelease c cl hostOS hostArch output prefix0 targets0).trace =
        FsEvent.removeAll (pathJoin c.app.path releaseDir) ::
          FsEvent.mkdirAll (pathJoin c.app.path releaseDir) :: rest) := by
  rw [BuildRelease_normal c cl hostOS hostArch output prefix0 targets0 h]
  constructor
  · intro ho p hp
    cases hlp : (releaseLoop cl (effPre c prefix0) (effReleasePath c output)
        (effTargets hostOS hostArch targets0) 0).2.2 with
    | some e =>
      simp only [hlp, if_neg ho] at hp
      simp at hp
      rcases hp with h1 | h1
      · exact absurd h1 (releaseLoop_events_no_remove _ _ _ _ _ _)
      · rcases releaseLoop_defers_shape _ _ _ _ _ _ h1 with ⟨q, hq, k, _, _, hk3⟩ | ⟨q, hq⟩
        · injection hq with hpq
          subst hpq
          exact ⟨k, hk3⟩
        · exact absurd hq (by simp)
    | none =>
      simp only [hlp, if_neg ho] at hp
      simp at hp
      rcases hp with h1 | h1
      · exact absurd h1 (releaseLoop_events_no_remove _ _ _ _ _ _)
      · rcases releaseLoop_defers_shape _ _ _ _ _ _ h1 with ⟨q, hq, k, _, _, hk3⟩ | ⟨q, hq⟩
        · injection hq with hpq
          subst hpq
          exact ⟨k, hk3⟩
        · exact absurd hq (by simp)
  · intro ho
    subst ho
    cases hlp : (releaseLoop cl (effPre c prefix0) (effReleasePath c "")
        (effTargets hostOS hostArch targets0) 0).2.2 with
    | some e =>
      simp only [hlp]
      exact ⟨_, rfl⟩
    | none =>
      simp only [hlp]
      exact ⟨_, rfl⟩

/-- Witness for C8: the default-path invocation resets
`{sourceRoot}/release` first, and with an explicit output directory the
only removal is of the temp build dir. -/
theorem claim_C8_witness :
    ((BuildRelease sampleChain okCollab "linux" "amd64" "" "foo" ["linux:amd64"]).trace).take 2
      = [FsEvent.removeAll "/home/u/mars/release",
         FsEvent.mkdirAll "/home/u/mars/release"] ∧
    (∃ k, okCollab.mkdirTempRes k = .ok "/tmp/build0") := by
  constructor
  · obtain ⟨rest, hrest⟩ := (claim_C8_release_dir sampleChain okCollab "linux" "amd64" ""
      "foo" ["linux:amd64"] ⟨rfl, ⟨_, rfl⟩, ⟨_, rfl⟩, ⟨_, rfl⟩, rfl, rfl⟩).2 rfl
    rw [hrest]
    rfl
  · exact (claim_C8_release_dir sampleChain okCollab "linux" "amd64" "/out" "foo"
      ["linux:amd64"] ⟨rfl, ⟨_, rfl⟩, ⟨_, rfl⟩, ⟨_, rfl⟩, rfl, rfl⟩).1 (by decide)
      "/tmp/build0" (by decide)

/-- C9: every temp dir `BuildRelease` creates has its removal in the trace
of the same invocation — cleanup is deferred at creation and runs on every
return path, so no temp dir survives the operation, whatever succeeded or
failed. -/
theorem claim_C9_temp_cleanup (c : Chain) (cl : Collab)
    (hostOS hostArch output prefix0 : String) (targets0 : List String) (d : String)
    (hd : FsEvent.mkdirTemp d ∈
      (BuildRelease c cl hostOS hostArch output prefix0 targets0).trace) :
    FsEvent.removeAll d ∈
      (BuildRelease c cl hostOS hostArch output prefix0 targets0).trace := by
  simp only [BuildRelease] at hd ⊢
  repeat' split at hd
  all_goals simp at hd
  all_goals simp only [List.cons_append, List.nil_append, List.mem_cons, List.mem_append,
    List.mem_reverse]
  all_goals rcases hd with h | h
  all_goals
    first
      | exact absurd (List.mem_reverse.mpr h) (releaseLoop_defers_no_mkdirTemp _ _ _ _ _ _)
      | (have hrm := releaseLoop_cleanup _ _ _ _ _ _ h
         simp_all [List.mem_append, List.mem_cons, List.mem_reverse])

/-- Witness for C9: the temp dir of the only target is removed even though
its compiler invocation fails. -/
theorem claim_C9_witness :
    FsEvent.removeAll "/tmp/build0" ∈
      (BuildRelease sampleChain exitCollab "linux" "amd64" "/out" "bar"
        ["linux:amd64"]).trace :=
  claim_C9_temp_cleanup sampleChain exitCollab "linux" "amd64" "/out" "bar"
    ["linux:amd64"] "/tmp/build0" (by decide)

/-- C10: the checksum step runs only after the whole per-target loop has
succeeded — a loop failure returns an empty release path, the loop's error,
and no checksum write happens; when the loop succeeds and only the checksum
write fails, `BuildRelease` returns the non-empty release directory path
together with the checksum error. -/
theorem claim_C10_checksum_finalize (c : Chain) (cl : Collab)
    (hostOS hostArch output prefix0 : String) (targets0 : List String) (h : PreOK c cl) :
    (∀ e, (releaseLoop cl (effPre c prefix0) (effReleasePath c output)
        (effTargets hostOS hostArch targets0) 0).2.2 = some e →
      (BuildRelease c cl hostOS hostArch output prefix0 targets0).releasePath = "" ∧
      (BuildRelease c cl hostOS hostArch output prefix0 targets0).err = some e ∧
      ∀ dir m, FsEvent.checksumWrite dir m ∉
        (BuildRelease c cl hostOS hostArch output prefix0 targets0).trace) ∧
    ((releaseLoop cl (effPre c prefix0) (effReleasePath c output)
        (effTargets hostOS hostArch targets0) 0).2.2 = none →
      (BuildRelease c cl hostOS hostArch output prefix0 targets0).releasePath
        = effReleasePath c output ∧
      effReleasePath c output ≠ "" ∧
      (BuildRelease c cl hostOS hostArch output prefix0 targets0).err = cl.checksumErr ∧
      FsEvent.checksumWrite (effReleasePath c output)
          (pathJoin (effReleasePath c output) checksumTxt) ∈
        (BuildRelease c cl hostOS hostArch output prefix0 targets0).trace) := by
  have hrpne : effReleasePath c output ≠ "" := by
    unfold effReleasePath
    split
    · exact pathJoin_ne_empty _ _ (by decide)
    · next ho => exact ho
  rw [BuildRelease_normal c cl hostOS hostArch output prefix0 targets0 h]
  constructor
  · intro e he
    simp only [he]
    refine ⟨trivial, trivial, ?_⟩
    intro dir m hmem
    simp only [List.mem_append] at hmem
    rcases hmem with (hmem | hmem) | hmem
    · exact absurd hmem (checksum_not_mem_preEvs _ _ _ _)
    · exact absurd hmem (releaseLoop_events_no_checksum _ _ _ _ _ _ _)
    · exact absurd hmem (releaseLoop_defers_no_checksum _ _ _ _ _ _ _)
  · intro he
    simp only [he]
    refine ⟨trivial, hrpne, trivial, ?_⟩
    simp [List.mem_append]

/-- Witness for C10: one target succeeds, the checksum write fails, and the
non-empty release path is returned together with the checksum error. -/
theorem claim_C10_witness :
    (BuildRelease sampleChain checksumErrCollab "linux" "amd64" "/out" "foo"
      ["linux:amd64"]).releasePath = "/out" ∧
    (BuildRelease sampleChain checksumErrCollab "linux" "amd64" "/out" "foo"
      ["linux:amd64"]).err = some (.other "ChecksumError" "cannot write checksum.txt") := by
  have happ := (claim_C10_checksum_finalize sampleChain checksumErrCollab "linux" "amd64"
    "/out" "foo" ["linux:amd64"] ⟨rfl, ⟨_, rfl⟩, ⟨_, rfl⟩, ⟨_, rfl⟩, rfl, rfl⟩).2 (by decide)
  exact ⟨happ.1, happ.2.2.1⟩

/-- C2: in `BuildRelease`, each target token is parsed before any compiler
subprocess runs for that target; on a parse failure at position `j` the
invocation aborts at once with the `TargetParseError` — the compiler has
run exactly for the earlier targets (none for the failing one, none
after), and the archives already written for the earlier targets are still
on disk when the invocation ends. -/
theorem claim_C2_parse_fail (c : Chain) (cl : Collab)
    (hostOS hostArch output prefix0 : String) (targets0 : List String) (j : Nat) (e : GoError)
    (h : PreOK c cl)
    (hj : j < (effTargets hostOS hostArch targets0).length)
    (hpre : ∀ k, (hk : k < j) →
      iterOK cl k ((effTargets hostOS hostArch targets0).get ⟨k, hk.trans hj⟩))
    (hparse : ParseTarget ((effTargets hostOS hostArch targets0).get ⟨j, hj⟩) = .error e)
    (htmp : ∀ k, k < (effTargets hostOS hostArch targets0).length → ∀ d,
      cl.mkdirTempRes k = .ok d → ∀ t ∈ effTargets hostOS hostArch targets0,
      isPathPrefix d (expectedArchivePath (effPre c prefix0) (effReleasePath c output) t)
        = false) :
    (BuildRelease c cl hostOS hostArch output prefix0 targets0).err = some e ∧
    (∃ tok, e = .targetParse tok) ∧
    compileTargets (BuildRelease c cl hostOS hostArch output prefix0 targets0).trace =
      ((effTargets hostOS hostArch targets0).take j).map
        (fun t => (parsedOS t, parsedArch t)) ∧
    ∀ t ∈ (effTargets hostOS hostArch targets0).take j,
      expectedArchivePath (effPre c prefix0) (effReleasePath c output) t ∈
        diskAfter [] (BuildRelease c cl hostOS hostArch output prefix0 targets0).trace := by
  have hiterevs : buildTargetIter cl (effPre c prefix0) (effReleasePath c output)
      (0 + j) ((effTargets hostOS hostArch targets0).get ⟨j, hj⟩) = ([], [], some e) :=
    iter_parse_fail cl _ _ _ hparse
  obtain ⟨hle, hlw, hlc⟩ := releaseLoop_fail_spec cl (effPre c prefix0)
    (effReleasePath c output) (effTargets hostOS hostArch targets0) 0 j hj
    (fun k hk => by rw [Nat.zero_add]; exact hpre k hk) e
    (by rw [hiterevs])
  have hlw' : writePaths (releaseLoop cl (effPre c prefix0) (effReleasePath c output)
      (effTargets hostOS hostArch targets0) 0).1 =
      ((effTargets hostOS hostArch targets0).take j).map
        (expectedArchivePath (effPre c prefix0) (effReleasePath c output)) := by
    rw [hlw, hiterevs]
    simp [writePaths]
  have hlc' : compileTargets (releaseLoop cl (effPre c prefix0) (effReleasePath c output)
      (effTargets hostOS hostArch targets0) 0).1 =
      ((effTargets hostOS hostArch targets0).take j).map
        (fun t => (parsedOS t, parsedArch t)) := by
    rw [hlc, hiterevs]
    simp [compileTargets]
  rw [BuildRelease_normal c cl hostOS hostArch output prefix0 targets0 h]
  simp only [hle]
  refine ⟨trivial, ⟨_, ParseTarget_error hparse⟩, ?_, ?_⟩
  · simp only [compileTargets_append, compileTargets_preEvs, compileTargets_nil,
      releaseLoop_defers_no_compile, hlc', List.append_nil, List.nil_append]
  · intro t ht
    have htfull := List.take_subset j (effTargets hostOS hostArch targets0) ht
    rw [List.append_assoc, diskAfter_append, diskAfter_preEvs]
    apply mem_diskAfter_of_write
    · apply List.mem_append_left
      apply mem_writePaths.mp
      rw [hlw']
      exact List.mem_map_of_mem _ ht
    · intro d hd
      rcases List.mem_append.mp hd with hd1 | hd1
      · exact absurd hd1 (releaseLoop_events_no_remove _ _ _ _ _ _)
      · rw [List.mem_reverse] at hd1
        rcases releaseLoop_defers_shape _ _ _ _ _ _ hd1 with ⟨q, hq, k, _, hklen, hk3⟩ | ⟨q, hq⟩
        · injection hq with hdq
          subst hdq
          exact htmp k (by simpa using hklen) d hk3 t htfull
        · exact absurd hq (by simp)

/-- Witness for C2: the second target token is malformed; the first
target's archive is written and on disk, the parse error is returned, and
the compiler ran only for the first target. -/
theorem claim_C2_witness :
    (BuildRelease sampleChain okCollab "linux" "amd64" "/out" "foo"
      ["linux:amd64", "bogus"]).err = some (.targetParse "bogus") ∧
    expectedArchivePath "foo" "/out" "linux:amd64" ∈
      diskAfter [] (BuildRelease sampleChain okCollab "linux" "amd64" "/out" "foo"
        ["linux:amd64", "bogus"]).trace := by
  have happ := claim_C2_parse_fail sampleChain okCollab "linux" "amd64" "/out" "foo"
    ["linux:amd64", "bogus"] 1 (.targetParse "bogus")
    ⟨rfl, ⟨_, rfl⟩, ⟨_, rfl⟩, ⟨_, rfl⟩, rfl, rfl⟩
    (by decide)
    (by intro k hk
        have hk0 : k = 0 := by omega
        subst hk0
        exact ⟨⟨_, rfl⟩, ⟨_, rfl⟩, rfl, rfl, rfl, rfl⟩)
    rfl
    (by intro k hk d hd t ht
        have hk2 : k < 2 := by simpa [effTargets] using hk
        interval_cases k <;> simp only [okCollab] at hd <;> (injection hd with hd') <;>
          subst hd' <;> fin_cases ht <;> decide)
  exact ⟨happ.1, happ.2.2.2 "linux:amd64" (by decide)⟩

/-- C1 counterexample: a compiler subprocess exit failure inside
`BuildRelease` is returned as the raw `exec.ExitError`, not as a
`CannotBuildAppError`: the deferred reclassification exists only in
`build`, which `Build` calls and `BuildRelease` does not. -/
theorem claim_C1_counterexample :
    (BuildRelease sampleChain exitCollab "linux" "amd64" "/out" "foo"
      ["linux:amd64"]).err = some (.exitError "exit status 1") ∧
    isCannotBuildTop (.exitError "exit status 1") = false := ⟨rfl, rfl⟩

/-- C1 (amended): in `Build`, an error whose chain holds a
subprocess-exit-style failure, or that `errors.Is` the
multiple-entry-points sentinel, is returned as `CannotBuildAppError`
carrying the original cause, and every other error is returned unchanged;
`BuildRelease` performs no such reclassification — a compiler exit failure
(like every other error) is returned unchanged. -/
theorem claim_C1_error_classification :
    (∀ (c : Chain) (cl : Collab) (e : GoError), cl.setupErr = none →
      buildInner c cl = some e →
      (isExitErrorChain e = true ∨ errorsIs e .errMultipleMainPackagesFound = true) →
      Build c cl = .error (.cannotBuildApp e)) ∧
    (∀ (c : Chain) (cl : Collab) (e : GoError), cl.setupErr = none →
      buildInner c cl = some e →
      isExitErrorChain e = false → errorsIs e .errMultipleMainPackagesFound = false →
      Build c cl = .error e) ∧
    (∀ (c : Chain) (cl : Collab) (hostOS hostArch output prefix0 : String)
      (targets0 : List String) (j : Nat) (ex : GoError), PreOK c cl →
      ∀ (hj : j < (effTargets hostOS hostArch targets0).length),
      (∀ k, (hk : k < j) →
        iterOK cl k ((effTargets hostOS hostArch targets0).get ⟨k, hk.trans hj⟩)) →
      (∃ p, ParseTarget ((effTargets hostOS hostArch targets0).get ⟨j, hj⟩) = .ok p) →
      (∃ d, cl.mkdirTempRes j = .ok d) →
      cl.compileErr j = some ex →
      (BuildRelease c cl hostOS hostArch output prefix0 targets0).err = some ex) := by
  refine ⟨?_, ?_, ?_⟩
  · intro c cl e hs hi hc
    rcases hc with hc | hc <;> simp [Build, build, hs, hi, reclassify, hc]
  · intro c cl e hs hi h1 h2
    simp [Build, build, hs, hi, reclassify, h1, h2]
  · intro c cl hostOS hostArch output prefix0 targets0 j ex h hj hpre hp hd hce
    obtain ⟨⟨o, a⟩, hpt⟩ := hp
    obtain ⟨d, hmt⟩ := hd
    have hfail : (buildTargetIter cl (effPre c prefix0) (effReleasePath c output)
        (0 + j) ((effTargets hostOS hostArch targets0).get ⟨j, hj⟩)).2.2 = some ex := by
      rw [Nat.zero_add]
      exact iter_compile_fail cl _ _ j hpt hmt hce
    obtain ⟨hle, _, _⟩ := releaseLoop_fail_spec cl (effPre c prefix0)
      (effReleasePath c output) (effTargets hostOS hostArch targets0) 0 j hj
      (fun k hk => by rw [Nat.zero_add]; exact hpre k hk) ex hfail
    rw [BuildRelease_normal c cl hostOS hostArch output prefix0 targets0 h]
    simp only [hle]

/-- Witness for the amended C1: `Build` wraps a compiler exit failure; a
plain config failure passes through `Build` unchanged; `BuildRelease`
returns the second target's compiler exit failure unchanged. -/
theorem claim_C1_witness :
    Build sampleChain exitCollab = .error (.cannotBuildApp (.exitError "exit status 1")) ∧
    Build sampleChain cfgErrCollab = .error (.other "ConfigError" "bad config") ∧
    (BuildRelease sampleChain exit1Collab "linux" "amd64" "/out" "foo"
      ["linux:amd64", "darwin:arm64"]).err = some (.exitError "exit status 1") := by
  refine ⟨?_, ?_, ?_⟩
  · exact claim_C1_error_classification.1 sampleChain exitCollab _ rfl rfl (Or.inl rfl)
  · exact claim_C1_error_classification.2.1 sampleChain cfgErrCollab _ rfl rfl rfl rfl
  · exact claim_C1_error_classification.2.2 sampleChain exit1Collab "linux" "amd64" "/out"
      "foo" ["linux:amd64", "darwin:arm64"] 1 (.exitError "exit status 1")
      ⟨rfl, ⟨_, rfl⟩, ⟨_, rfl⟩, ⟨_, rfl⟩, rfl, rfl⟩ (by decide)
      (by intro k hk
          have hk0 : k = 0 := by omega
          subst hk0
          exact ⟨⟨_, rfl⟩, ⟨_, rfl⟩, rfl, rfl, rfl, rfl⟩)
      ⟨_, rfl⟩ ⟨_, rfl⟩ rfl

end Chain
